import Mathlib

/-!
Verification of the book-catalog API against its specification.

The definitions below are a shallow embedding of the Python sources:
  - `src/app/models/book.py`       (pydantic schemas `BookBase`/`BookCreate`/`BookUpdate`)
  - `src/app/core/models.py`       (the persisted `Book` row)
  - `src/app/services/book_service.py`   (`BookService.get_books` / `update_book` / `create_book`)
  - `src/app/services/metadata_service.py` (`MetadataService.get_book_metadata` / `enhance_book_data`)
  - `src/app/utils/json_import.py` (`process_json_file`)
  - `src/app/api/books.py`         (`enrich_book_with_metadata`)

Conventions: Python `None` becomes `Option.none`; Python dicts with a fixed key set
become structures; timestamps are abstract `Nat` clock values supplied by the caller
(`now`); `datetime.now().year` is the parameter `cy` (current year); the SQLAlchemy
store is a list of rows, and its unique-constraint / onupdate behaviour is made
explicit where the service code relies on it.
-/

namespace BookApi

/-- A persisted row of the `books` table (src/app/core/models.py, class `Book`):
columns id, title, author, description, publication_year, isbn, created_at,
updated_at. Timestamps are abstract clock values. -/
structure StoredBook where
  id : Nat
  title : String
  author : String
  description : Option String
  publication_year : Option Int
  isbn : Option String
  created_at : Nat
  updated_at : Nat
deriving Repr, DecidableEq

/-- The store: the `books` table as a list of rows, in insertion order. -/
abbrev Store := List StoredBook

/-- Payload accepted by `BookCreate` after validation (src/app/models/book.py).
`title` and `author` are required; the rest are optional. -/
structure BookCreate where
  title : String
  author : String
  description : Option String := none
  publication_year : Option Int := none
  isbn : Option String := none
deriving Repr, DecidableEq

/-- Payload accepted by `BookUpdate` after validation (src/app/models/book.py):
every field optional, `none` meaning "not supplied". -/
structure BookUpdate where
  title : Option String := none
  author : Option String := none
  description : Option String := none
  publication_year : Option Int := none
  isbn : Option String := none
deriving Repr, DecidableEq

/-- A raw, untyped payload (one JSON object from an import file, or a request
body) before pydantic validation: each recognised key either absent or present. -/
structure RawBook where
  title : Option String := none
  author : Option String := none
  description : Option String := none
  publication_year : Option Int := none
  isbn : Option String := none
deriving Repr, DecidableEq

/-- Number of decimal digits in a string. -/
def digitCount (s : String) : Nat := (s.data.filter (fun c => c.isDigit)).length

/-- The compiled meaning of the `BookBase.isbn` pattern
`^(?=(?:\D*\d){10}(?:(?:\D*\d){3})?$)[\d-]+$` (src/app/models/book.py):
the whole string consists of digits and hyphens (`[\d-]+$`, so it is nonempty),
and the lookahead requires exactly 10 or exactly 13 digits with the string
ending immediately after the last digit (the `$` sits inside the lookahead
right after the final `\d`), so the last character is a digit. -/
def isbnPatternOk (s : String) : Bool :=
  !s.isEmpty
    && s.data.all (fun c => c.isDigit || c == '-')
    && (digitCount s == 10 || digitCount s == 13)
    && (match s.data.getLast? with
        | some c => c.isDigit
        | none => false)

/-- Validation of an optional isbn field: pydantic applies `max_length=20` and
the pattern only when the value is not `None`. -/
def validIsbnOpt : Option String → Bool
  | none => true
  | some s => s.length ≤ 20 && isbnPatternOk s

/-- Validation of an optional publication year: `ge=1000, le=datetime.now().year`
(the `Field` constraint and the duplicate `validator` impose the same bounds);
`cy` is the current year. -/
def validYearOpt (cy : Int) : Option Int → Bool
  | none => true
  | some y => 1000 ≤ y && y ≤ cy

/-- Validation performed by `BookCreate(**book_data)` (used by
`validate_json_book` in src/app/utils/json_import.py and by the create
endpoint): `title` and `author` are required with `max_length=255`;
`publication_year` and `isbn` are checked by `validYearOpt` / `validIsbnOpt`
when present. Failure returns the pydantic `ValidationError` message. -/
def validateBookCreate (cy : Int) (raw : RawBook) : Except String BookCreate :=
  match raw.title with
  | none => .error "title: field required"
  | some t =>
    if 255 < t.length then .error "title: ensure this value has at most 255 characters"
    else match raw.author with
    | none => .error "author: field required"
    | some a =>
      if 255 < a.length then .error "author: ensure this value has at most 255 characters"
      else if !validYearOpt cy raw.publication_year then
        .error "publication_year: value out of range"
      else if !validIsbnOpt raw.isbn then
        .error "isbn: string does not match expected pattern"
      else .ok ⟨t, a, raw.description, raw.publication_year, raw.isbn⟩

/-- Validation performed by `BookUpdate(**payload)` (src/app/models/book.py):
every field optional, with the same per-field constraints as `BookCreate`
applied to the values that are present. -/
def validateBookUpdate (cy : Int) (raw : RawBook) : Except String BookUpdate :=
  if (match raw.title with | some t => decide (255 < t.length) | none => false) then
    .error "title: ensure this value has at most 255 characters"
  else if (match raw.author with | some a => decide (255 < a.length) | none => false) then
    .error "author: ensure this value has at most 255 characters"
  else if !validYearOpt cy raw.publication_year then
    .error "publication_year: value out of range"
  else if !validIsbnOpt raw.isbn then
    .error "isbn: string does not match expected pattern"
  else .ok ⟨raw.title, raw.author, raw.description, raw.publication_year, raw.isbn⟩

/-! ## Book repository (src/app/services/book_service.py) -/

/-- The service operation `BookService.create_book`: builds a `Book` row from the payload, adds it and
commits. The store's unique constraint on `isbn` (src/app/core/models.py,
`unique=True`, nullable) rejects the insert when a non-null isbn collides with
an existing row; the service lets that exception escape, so the embedding
returns it as an error string. The id is store-assigned; `now` is the commit
clock used for the `created_at`/`updated_at` defaults. -/
def createBook (now : Nat) (store : Store) (bc : BookCreate) : Except String (StoredBook × Store) :=
  match bc.isbn with
  | some s =>
    if store.any (fun b => b.isbn == some s) then
      .error "UNIQUE constraint failed: books.isbn"
    else
      let b : StoredBook := ⟨store.length + 1, bc.title, bc.author, bc.description,
        bc.publication_year, bc.isbn, now, now⟩
      .ok (b, store ++ [b])
  | none =>
    let b : StoredBook := ⟨store.length + 1, bc.title, bc.author, bc.description,
      bc.publication_year, bc.isbn, now, now⟩
    .ok (b, store ++ [b])

/-- Whether the applied payload produces a net change to some column of the
row. The ORM's scalar attribute history treats a `setattr` whose value equals
the loaded value as no change, so the flush emits an UPDATE statement exactly
when some non-None payload field differs from the row's current value; an
all-None payload performs no `setattr` at all. -/
def netChange (b : StoredBook) (u : BookUpdate) : Bool :=
  (match u.title with | some v => !(v == b.title) | none => false)
  || (match u.author with | some v => !(v == b.author) | none => false)
  || (match u.description with | some v => !(some v == b.description) | none => false)
  || (match u.publication_year with | some v => !(some v == b.publication_year) | none => false)
  || (match u.isbn with | some v => !(some v == b.isbn) | none => false)

/-- The field assignments of `BookService.update_book`: `update_data` keeps the
non-None entries of `book_data.model_dump()` and `setattr` applies each one;
fields not in `update_data` keep their prior values. The store's
`onupdate=func.now()` hook on `updated_at` (src/app/core/models.py) fires only
when the commit actually emits an UPDATE for the row, i.e. exactly when the
applied fields produce a net change (`netChange`); otherwise `updated_at`
keeps its prior value. -/
def applyUpdate (b : StoredBook) (u : BookUpdate) (now : Nat) : StoredBook :=
  { b with
    title := match u.title with | some v => v | none => b.title
    author := match u.author with | some v => v | none => b.author
    description := match u.description with | some v => some v | none => b.description
    publication_year := match u.publication_year with | some v => some v | none => b.publication_year
    isbn := match u.isbn with | some v => some v | none => b.isbn
    updated_at := if netChange b u then now else b.updated_at }

/-- Replace the first row with the given id by the updated row (the ORM mutates
the one object returned by `.first()` in place). -/
def replaceFirst (bid : Nat) (b' : StoredBook) : Store → Store
  | [] => []
  | b :: rest => if b.id == bid then b' :: rest else b :: replaceFirst bid b' rest

/-- The service operation `BookService.update_book`: select the first row with
the given id; `None`
when absent; otherwise apply the non-None fields of the payload, commit, and
return the refreshed row. -/
def updateBook (store : Store) (now : Nat) (bid : Nat) (u : BookUpdate) :
    Option (StoredBook × Store) :=
  match store.find? (fun b => b.id == bid) with
  | none => none
  | some b =>
    let b' := applyUpdate b u now
    some (b', replaceFirst bid b' store)

/-! ## Pagination calculator (src/app/services/book_service.py, get_books) -/

/-- Pagination metadata as built by `get_books`
(src/app/models/response.py, `PaginationMetadata`). -/
structure PaginationMetadata where
  current_page : Nat
  page_size : Nat
  total_items : Nat
  total_pages : Nat
  has_next : Bool
  has_previous : Bool
deriving Repr, DecidableEq

/-- The quantity `ceil(total_items / page_size)` from `get_books`. Python computes
`math.ceil` of the exact ratio (the float rounding of `/` is not modelled);
on naturals that ceiling is `(total + size - 1) / size`, proved equal to the
rational ceiling in `ceil_div_eq_rat_ceil`. -/
def ceilDivNat (total size : Nat) : Nat := (total + size - 1) / size

/-- The pagination metadata computed at the end of `get_books`:
`total_pages = ceil(total_items / page_size) if total_items > 0 else 0`,
`has_next = page < total_pages`, `has_previous = page > 1`. -/
def paginationMetadata (total page size : Nat) : PaginationMetadata :=
  let total_pages := if 0 < total then ceilDivNat total size else 0
  { current_page := page
    page_size := size
    total_items := total
    total_pages := total_pages
    has_next := decide (page < total_pages)
    has_previous := decide (1 < page) }

/-! ## Filter compiler (src/app/services/book_service.py, get_books) -/

/-- A filter value as it appears in the `filters` dict: the query layer passes
strings for `title`/`author`/`isbn` and an int for `publication_year`. -/
inductive FilterVal where
  | str (s : String)
  | int (n : Int)
deriving Repr, DecidableEq

/-- A filter mapping: association list in dict iteration order; a `none` value
is Python `None`. -/
abbrev Filters := List (String × Option FilterVal)

/-- Whether `k` names one of the eight mapped columns of the `Book` model
(src/app/core/models.py). -/
def isBookColumn (k : String) : Bool :=
  k == "id" || k == "title" || k == "author" || k == "description" ||
  k == "publication_year" || k == "isbn" || k == "created_at" || k == "updated_at"

/-- Whether `k` names a non-column attribute visible on the `Book` class:
`hasattr(Book, key)` is also true for `__tablename__` and the attributes the
class inherits from `declarative_base()` and from `object` — the table
`metadata`, the `registry`, the docstring, the module name and the ordinary
dunder methods. The representative members listed here stand for that family;
all behave as `classAttrStr` describes. -/
def isBookClassAttr (k : String) : Bool :=
  k == "__tablename__" || k == "__doc__" || k == "__module__" ||
  k == "metadata" || k == "registry" || k == "__init__" || k == "__repr__"

/-- The check `hasattr(Book, key)`: true for the mapped columns and for the
non-column class attributes. -/
def bookHasAttr (k : String) : Bool :=
  isBookColumn k || isBookClassAttr k

/-- The Python value of a string-valued non-column class attribute, when the
attribute's value is a string: `Book.__tablename__` is `"books"`,
`Book.__doc__` is the class docstring, `Book.__module__` the module name.
The other class attributes (`metadata`, `registry`, methods) are objects that
compare unequal to every filter string or int. -/
def classAttrStr (k : String) : Option String :=
  if k == "__tablename__" then some "books"
  else if k == "__doc__" then some "Модель книги в базе данных."
  else if k == "__module__" then some "app.core.models"
  else none

/-- Case-insensitive character comparison, as SQL `ILIKE` compares letters. -/
def lowerEq (a c : Char) : Bool := a.toLower == c.toLower

/-- Row semantics of an SQL `ILIKE` pattern: `%` matches any (possibly empty)
character sequence, `_` matches exactly one character, any other pattern
character matches one text character case-insensitively. No `ESCAPE` clause is
in play in `get_books`, so every `%`/`_` in the pattern is a wildcard. -/
def likeMatch : List Char → List Char → Bool
  | [], t => t.isEmpty
  | a :: p, t =>
    if a = '%' then
      t.tails.any (fun t' => likeMatch p t')
    else
      match t with
      | [] => false
      | c :: t' => (decide (a = '_') || lowerEq a c) && likeMatch p t'

/-- Row semantics of `column.ilike(f"%{value}%")`: the `ILIKE` match of the
column text against the pattern `"%" ++ value ++ "%"`, wildcards inside
`value` included. -/
def ilikeContains (colVal v : String) : Bool :=
  likeMatch ('%' :: v.data ++ ['%']) colVal.data

/-- The string interpolation `f"%{value}%"` applied to a filter value. -/
def filterValStr : FilterVal → String
  | .str s => s
  | .int n => toString n

/-- Row semantics of one compiled condition. For `title`/`author` the code
appends `ilike(f"%{value}%")`. For any other mapped column,
`getattr(Book, key) == value` is SQL equality on the column (a NULL column
equals nothing, and a value of the wrong type for the column matches nothing).
For a non-column class attribute, `getattr(Book, key) == value` is evaluated
by Python at query-build time and yields a plain bool that `and_` coerces into
a constant clause independent of the row: a string-valued class attribute
compares as a literal string, every other class attribute compares unequal to
any str/int filter value. -/
def rowPred (b : StoredBook) (k : String) (v : FilterVal) : Bool :=
  if k == "title" then ilikeContains b.title (filterValStr v)
  else if k == "author" then ilikeContains b.author (filterValStr v)
  else if k == "id" then (match v with | .int n => (b.id : Int) == n | .str _ => false)
  else if k == "description" then (match v with | .str s => b.description == some s | .int _ => false)
  else if k == "publication_year" then (match v with | .int n => b.publication_year == some n | .str _ => false)
  else if k == "isbn" then (match v with | .str s => b.isbn == some s | .int _ => false)
  else if k == "created_at" then (match v with | .int n => (b.created_at : Int) == n | .str _ => false)
  else if k == "updated_at" then (match v with | .int n => (b.updated_at : Int) == n | .str _ => false)
  else
    match classAttrStr k, v with
    | some s0, .str s => s0 == s
    | _, _ => false

/-- The `filter_conditions` list built by `get_books`: one condition per entry
whose key is a `Book` attribute and whose value is not `None`, in dict order. -/
def filterConditions (filters : Filters) : List (String × FilterVal) :=
  filters.filterMap (fun kv =>
    match kv.2 with
    | some v => if bookHasAttr kv.1 then some (kv.1, v) else none
    | none => none)

/-- Row semantics of the compiled query predicate: `and_(*filter_conditions)`
when any condition exists, no `where` clause (match all) otherwise. -/
def matchesFilters (filters : Filters) (b : StoredBook) : Bool :=
  (filterConditions filters).all (fun kv => rowPred b kv.1 kv.2)

/-- Modelled from the spec's words, for comparison with the code's `ILIKE`:
case-insensitive prefix test. -/
def isPrefixOfCI : List Char → List Char → Bool
  | [], _ => true
  | _ :: _, [] => false
  | a :: p, c :: t => lowerEq a c && isPrefixOfCI p t

/-- Modelled from the spec's words: case-insensitive contiguous-substring
occurrence of `needle` in the text. -/
def containsSubCI (needle : List Char) : List Char → Bool
  | [] => needle.isEmpty
  | c :: t => isPrefixOfCI needle (c :: t) || containsSubCI needle t

/-- Modelled from the spec's words: `v` occurs in `hay` as a case-insensitive
substring. -/
def substringCI (hay v : String) : Bool :=
  containsSubCI v.data hay.data

/-- A filter value free of the SQL LIKE wildcards `%` and `_`. -/
def noWildcards (s : String) : Bool :=
  s.data.all (fun c => !(c == '%' || c == '_'))

/-! ## External metadata model (src/app/models/metadata.py) -/

/-- A `datetime` value (only the calendar components matter to this system). -/
structure PyDateTime where
  year : Int
  month : Nat
  day : Nat
deriving Repr, DecidableEq

/-- The `Author` model from src/app/models/metadata.py. -/
structure AuthorMeta where
  name : String
  birth_year : Option Int := none
  death_year : Option Int := none
  country : Option String := none
deriving Repr, DecidableEq

/-- The `Genre` model from src/app/models/metadata.py. -/
structure GenreMeta where
  name : String
  category : Option String := none
deriving Repr, DecidableEq

/-- The `BookMetadata` model from src/app/models/metadata.py (fields not consumed by the
merger — publisher, language, pages, ratings — are omitted as inert). -/
structure BookMetadata where
  isbn : String
  title : String
  authors : List AuthorMeta
  publication_date : Option PyDateTime := none
  cover_url : Option String := none
  description : Option String := none
  genres : Option (List GenreMeta) := none
deriving Repr, DecidableEq

/-- The dict `book.model_dump()` that `enhance_book_data` mutates: the eight
`BookInDB` fields plus the keys the merger may add (`cover_url`, `genre`,
`publication_date`), absent (`none`) until assigned. -/
structure BookData where
  id : Nat
  title : String
  author : String
  description : Option String
  publication_year : Option Int
  isbn : Option String
  created_at : Nat
  updated_at : Nat
  cover_url : Option String := none
  genre : Option String := none
  publication_date : Option PyDateTime := none
deriving Repr, DecidableEq

/-- Python truthiness of an optional string: `None` and `""` are falsy. -/
def truthyOS : Option String → Bool
  | none => false
  | some s => !s.isEmpty

/-- Python truthiness of an optional list: `None` and `[]` are falsy. -/
def truthyOL {α : Type} : Option (List α) → Bool
  | none => false
  | some l => !l.isEmpty

/-- Statement `if metadata.title: book_data["title"] = metadata.title` of
`enhance_book_data` (src/app/services/metadata_service.py). -/
def mergeTitle (md : BookMetadata) (bd : BookData) : BookData :=
  if !md.title.isEmpty then { bd with title := md.title } else bd

/-- Statement `if not book_data.get("description") and metadata.description:`
of `enhance_book_data`: fill the description from metadata only when the
current one is falsy. -/
def mergeDescription (md : BookMetadata) (bd : BookData) : BookData :=
  if !truthyOS bd.description && truthyOS md.description then
    { bd with description := md.description }
  else bd

/-- Statement `if not book_data.get("author") and metadata.authors and
len(metadata.authors) > 0:` of `enhance_book_data`: fill the author with
`metadata.authors[0].name` only when the current one is falsy. -/
def mergeAuthor (md : BookMetadata) (bd : BookData) : BookData :=
  if bd.author.isEmpty && !md.authors.isEmpty then
    match md.authors with
    | a :: _ => { bd with author := a.name }
    | [] => bd
  else bd

/-- Statement `if metadata.cover_url: book_data["cover_url"] =
str(metadata.cover_url)` of `enhance_book_data`. -/
def mergeCover (md : BookMetadata) (bd : BookData) : BookData :=
  if truthyOS md.cover_url then { bd with cover_url := md.cover_url } else bd

/-- Statement `if metadata.genres and len(metadata.genres) > 0:
book_data["genre"] = metadata.genres[0].name` of `enhance_book_data`. -/
def mergeGenre (md : BookMetadata) (bd : BookData) : BookData :=
  if truthyOL md.genres then
    match md.genres with
    | some (g :: _) => { bd with genre := some g.name }
    | _ => bd
  else bd

/-- Statement `if metadata.publication_date: book_data["publication_date"] =
metadata.publication_date` of `enhance_book_data`: the raw datetime is copied
under the `publication_date` key, with no conversion. -/
def mergePubDate (md : BookMetadata) (bd : BookData) : BookData :=
  match md.publication_date with
  | some d => { bd with publication_date := some d }
  | none => bd

/-- The merge step of `MetadataService.enhance_book_data`
(src/app/services/metadata_service.py, after the fetch): the six mutation
statements applied in source order to the book dict. -/
def enhanceBookData (md : BookMetadata) (bd : BookData) : BookData :=
  mergePubDate md (mergeGenre md (mergeCover md (mergeAuthor md
    (mergeDescription md (mergeTitle md bd)))))

/-! ## Metadata fetch (src/app/services/metadata_service.py, get_book_metadata) -/

/-- Outcome of the single `httpx` GET: either a transport failure
(`httpx.RequestError`) or a response whose body either fails to parse into
`BookMetadata` (`response.json()` / `BookMetadata(**data)` raising) or yields
well-formed metadata. -/
inductive FetchOutcome where
  | transportError (msg : String)
  | malformed (msg : String)
  | wellFormed (md : BookMetadata)
deriving Repr, DecidableEq

/-- An `HTTPException` as raised by the service layer. -/
structure HTTPError where
  status_code : Nat
  detail : String
deriving Repr, DecidableEq

/-- The service operation `MetadataService.get_book_metadata`: one fetch, no retry.
`httpx.RequestError` is mapped to status 503; every other exception —
including a malformed body — is caught by the blanket `except Exception`
and mapped to status 500. On success the parsed metadata is returned. -/
def getBookMetadata (outcome : FetchOutcome) : Except HTTPError BookMetadata :=
  match outcome with
  | .transportError e => .error ⟨503, "Ошибка при обращении к внешнему API: " ++ e⟩
  | .malformed e => .error ⟨500, "Ошибка при получении метаданных: " ++ e⟩
  | .wellFormed md => .ok md

/-- The operation `MetadataService.enhance_book_data` as a whole: it first awaits
`get_book_metadata` — a fetch failure propagates and fails the enclosing
enrichment — then merges. -/
def enhanceBookDataFetch (outcome : FetchOutcome) (bd : BookData) :
    Except HTTPError BookData :=
  match getBookMetadata outcome with
  | .error e => .error e
  | .ok md => .ok (enhanceBookData md bd)

/-! ## Enrichment endpoint (src/app/api/books.py, enrich_book_with_metadata) -/

/-- The dict `book.model_dump()` on the `BookInDB` fetched by `get_book_by_id`. -/
def toBookData (b : StoredBook) : BookData :=
  { id := b.id, title := b.title, author := b.author, description := b.description,
    publication_year := b.publication_year, isbn := b.isbn,
    created_at := b.created_at, updated_at := b.updated_at }

/-- The construction `BookUpdate(**enhanced_book_data)`: pydantic reads the declared fields from
the dict — `title` and `author` are always present as strings there, the other
three as optionals — ignores every extra key (`id`, `created_at`, `updated_at`,
`cover_url`, `genre`, `publication_date`; pydantic's default is `extra="ignore"`)
and validates the present values. -/
def bookUpdateOfEnhanced (cy : Int) (bd : BookData) : Except String BookUpdate :=
  validateBookUpdate cy
    ⟨some bd.title, some bd.author, bd.description, bd.publication_year, bd.isbn⟩

/-- The `/books/{book_id}/metadata` endpoint (src/app/api/books.py):
fetch the book (404 if absent), require a truthy isbn (400 otherwise),
enhance via the metadata service (its `HTTPException` propagates), build a
`BookUpdate` from the merged dict (an uncaught `ValidationError` surfaces as a
500), update and return the stored book. -/
def enrichBookWithMetadata (cy : Int) (now : Nat) (store : Store) (bid : Nat)
    (outcome : FetchOutcome) : Except HTTPError (StoredBook × Store) :=
  match store.find? (fun b => b.id == bid) with
  | none => .error ⟨404, "Книга не найдена"⟩
  | some book =>
    if !truthyOS book.isbn then
      .error ⟨400, "У книги отсутствует ISBN, невозможно получить метаданные"⟩
    else
      match enhanceBookDataFetch outcome (toBookData book) with
      | .error e => .error e
      | .ok enhanced =>
        match bookUpdateOfEnhanced cy enhanced with
        | .error e => .error ⟨500, e⟩
        | .ok bu =>
          match updateBook store now bid bu with
          | none => .error ⟨500, "Ошибка при обновлении книги"⟩
          | some (ub, st') => .ok (ub, st')

/-! ## Bulk JSON import (src/app/utils/json_import.py, process_json_file) -/

/-- The error string recorded when item number `pos` (1-based) fails schema
validation: `f"Ошибка валидации книги #{idx + 1}: {str(e)}"`. -/
def validationErrMsg (pos : Nat) (e : String) : String :=
  "Ошибка валидации книги #" ++ toString pos ++ ": " ++ e

/-- The error string recorded when item number `pos` (1-based) fails at
`create_book`: `f"Ошибка импорта книги #{idx + 1}: {str(e)}"`. -/
def importErrMsg (pos : Nat) (e : String) : String :=
  "Ошибка импорта книги #" ++ toString pos ++ ": " ++ e

/-- The `for idx, book_data in enumerate(json_data)` loop of
`process_json_file`: validate, then create; a `ValidationError` or any create
failure increments `failed_imports` and appends one message carrying the
1-based position; success increments `successful_imports`; the loop never
aborts. Accumulators mirror the Python counters and `errors` list. -/
def processLoop (cy : Int) (now : Nat) : Nat → Nat → Nat → List String → Store →
    List RawBook → Nat × Nat × List String × Store
  | _, succ, fail, errs, store, [] => (succ, fail, errs, store)
  | idx, succ, fail, errs, store, raw :: rest =>
    match validateBookCreate cy raw with
    | .error e =>
      processLoop cy now (idx + 1) succ (fail + 1)
        (errs ++ [validationErrMsg (idx + 1) e]) store rest
    | .ok bc =>
      match createBook now store bc with
      | .error e =>
        processLoop cy now (idx + 1) succ (fail + 1)
          (errs ++ [importErrMsg (idx + 1) e]) store rest
      | .ok (_, store') =>
        processLoop cy now (idx + 1) (succ + 1) fail errs store' rest

/-- The function `process_json_file` on an already-decoded array of raw items: returns
`(successful_imports, failed_imports, errors)` plus the final store. -/
def processJsonFile (cy : Int) (now : Nat) (items : List RawBook) (store : Store) :
    Nat × Nat × List String × Store :=
  processLoop cy now 0 0 0 [] store items

/-- Specification-side trace of one import run: walking the items from 1-based
position `pos`, collect the `(position, message)` pair of every failing item in
input order, the created rows of every succeeding item in input order, and the
final store. `process_json_file` is proved to refine this trace. -/
def importTrace (cy : Int) (now : Nat) (pos : Nat) (store : Store) :
    List RawBook → List (Nat × String) × List StoredBook × Store
  | [] => ([], [], store)
  | raw :: rest =>
    match validateBookCreate cy raw with
    | .error e =>
      let r := importTrace cy now (pos + 1) store rest
      ((pos, validationErrMsg pos e) :: r.1, r.2.1, r.2.2)
    | .ok bc =>
      match createBook now store bc with
      | .error e =>
        let r := importTrace cy now (pos + 1) store rest
        ((pos, importErrMsg pos e) :: r.1, r.2.1, r.2.2)
      | .ok (b, store') =>
        let r := importTrace cy now (pos + 1) store' rest
        (r.1, b :: r.2.1, r.2.2)

/-! ## Theorems -/

/-- The integer formula `(total + size - 1) / size` computes the ceiling of the
exact ratio `total / size`. -/
lemma ceilDivNat_eq_rat_ceil (total size : Nat) (hs : 0 < size) :
    ceilDivNat total size = ⌈(total : ℚ) / (size : ℚ)⌉₊ := by
  have hsQ : (0 : ℚ) < (size : ℚ) := by exact_mod_cast hs
  have hrepr : ceilDivNat total size = total ⌈/⌉ size := rfl
  rw [hrepr]
  apply le_antisymm
  · rw [ceilDiv_le_iff_le_mul hs]
    have h1 : (total : ℚ) ≤ (size : ℚ) * (⌈(total : ℚ) / (size : ℚ)⌉₊ : ℚ) := by
      have h2 : (total : ℚ) / (size : ℚ) ≤ (⌈(total : ℚ) / (size : ℚ)⌉₊ : ℚ) :=
        Nat.le_ceil _
      calc (total : ℚ) = (size : ℚ) * ((total : ℚ) / (size : ℚ)) := by field_simp
        _ ≤ (size : ℚ) * (⌈(total : ℚ) / (size : ℚ)⌉₊ : ℚ) := by nlinarith
    exact_mod_cast h1
  · rw [Nat.ceil_le, div_le_iff₀ hsQ]
    have h1 : total ≤ size * (total ⌈/⌉ size) := (ceilDiv_le_iff_le_mul hs).1 le_rfl
    have h1Q : (total : ℚ) ≤ (size : ℚ) * ((total ⌈/⌉ size : ℕ) : ℚ) := by exact_mod_cast h1
    linarith [h1Q]

/-- C2: for every `total_items ≥ 0`, `page ≥ 1`, `page_size ≥ 1`, the metadata
computed by `get_books` has `total_pages = ceil(total_items / page_size)` when
`total_items > 0` and `0` otherwise, `has_next = (page < total_pages)`, and
`has_previous = (page > 1)` computed literally even when `total_items = 0`. -/
theorem pagination_metadata_correct (total page size : Nat)
    (_hp : 1 ≤ page) (hs : 1 ≤ size) :
    ((paginationMetadata total page size).total_pages
        = if 0 < total then ⌈(total : ℚ) / (size : ℚ)⌉₊ else 0)
  ∧ ((paginationMetadata total page size).has_next
        = decide (page < (paginationMetadata total page size).total_pages))
  ∧ ((paginationMetadata total page size).has_previous = decide (1 < page))
  ∧ (total = 0 → (paginationMetadata total page size).total_pages = 0
        ∧ (paginationMetadata total page size).has_next = false) := by
  refine ⟨?_, rfl, rfl, ?_⟩
  · by_cases h : 0 < total
    · simp only [paginationMetadata, if_pos h, ceilDivNat_eq_rat_ceil total size hs]
    · simp only [paginationMetadata, if_neg h]
  · intro h
    subst h
    exact ⟨rfl, rfl⟩

/-- Matching the single-wildcard pattern `%` succeeds on every text. -/
lemma likeMatch_percent_only : ∀ t : List Char, likeMatch ['%'] t = true := by
  intro t
  induction t with
  | nil => rfl
  | cons c t ih =>
    simp only [likeMatch] at ih ⊢
    simp only [List.tails_cons, List.any_cons] at ih ⊢
    simp [ih]

/-- Matching a pattern that starts with `%` tries the rest of the pattern on
every suffix of the text. -/
lemma likeMatch_percent_cons (p : List Char) (t : List Char) :
    likeMatch ('%' :: p) t = t.tails.any (fun t' => likeMatch p t') := by
  simp [likeMatch]

/-- A wildcard-free pattern followed by `%` matches exactly the texts it is a
case-insensitive prefix of. -/
lemma likeMatch_append_percent (v : List Char) (hv : ∀ c ∈ v, c ≠ '%' ∧ c ≠ '_') :
    ∀ t, likeMatch (v ++ ['%']) t = isPrefixOfCI v t := by
  induction v with
  | nil =>
    intro t
    simp [isPrefixOfCI, likeMatch_percent_only]
  | cons a v ih =>
    intro t
    have ha := hv a (List.mem_cons_self a v)
    have hv' : ∀ c ∈ v, c ≠ '%' ∧ c ≠ '_' := fun c hc => hv c (List.mem_cons_of_mem a hc)
    cases t with
    | nil => simp [likeMatch, isPrefixOfCI, ha.1]
    | cons c t' => simp [likeMatch, isPrefixOfCI, ha.1, ha.2, ih hv' t']

/-- A pattern is a case-insensitive prefix of the empty text only when empty. -/
lemma isPrefixOfCI_nil (needle : List Char) : isPrefixOfCI needle [] = needle.isEmpty := by
  cases needle <;> rfl

/-- Substring occurrence is prefix occurrence at some suffix. -/
lemma containsSubCI_eq_tails (needle : List Char) :
    ∀ t, containsSubCI needle t = t.tails.any (fun t' => isPrefixOfCI needle t') := by
  intro t
  induction t with
  | nil => simp [containsSubCI, isPrefixOfCI_nil]
  | cons c t ih => simp [containsSubCI, List.tails_cons, ih]

/-- On wildcard-free filter values, the compiled `ILIKE "%value%"` condition is
exactly case-insensitive substring containment. -/
lemma ilikeContains_no_wildcards (hay v : String) (hv : noWildcards v = true) :
    ilikeContains hay v = substringCI hay v := by
  have hv' : ∀ c ∈ v.data, c ≠ '%' ∧ c ≠ '_' := by
    intro c hc
    have h := List.all_eq_true.mp hv c hc
    simp only [Bool.not_eq_eq_eq_not, Bool.not_true, Bool.or_eq_false_iff, beq_eq_false_iff_ne,
      ne_eq] at h
    exact h
  unfold ilikeContains substringCI
  simp only [List.cons_append]
  rw [likeMatch_percent_cons, containsSubCI_eq_tails]
  simp only [likeMatch_append_percent v.data hv']

/-- Counterexample to C3 as stated, on two counts. First, the key
`description` is not among the four recognized filter fields, so per the claim
it must be ignored and the mapping must match every book like the empty
mapping does; but `hasattr(Book, "description")` holds and `get_books`
compiles it into an equality term, so a book whose description is `"y"` fails
the filter `description = "x"`. Second, the claim says title matching is
substring containment, but the value is interpolated into an `ILIKE` pattern,
so the value `"B%k"` matches the title `"Book"` although it is not a substring
of it. -/
theorem filters_description_key_not_ignored :
    matchesFilters [("description", some (FilterVal.str "x"))]
        ⟨1, "T", "A", some "y", none, none, 0, 0⟩ = false
  ∧ matchesFilters [] ⟨1, "T", "A", some "y", none, none, 0, 0⟩ = true
  ∧ matchesFilters [("title", some (FilterVal.str "B%k"))]
        ⟨2, "Book", "A", none, none, none, 0, 0⟩ = true
  ∧ substringCI "Book" "B%k" = false := by
  exact ⟨rfl, rfl, by decide, by decide⟩

/-- C3 (amended): filter keys are compiled per `hasattr(Book, key)`, which is
satisfied not only by the four recognized query parameters but by all eight
mapped columns and by the class's non-column attributes. Mapped columns
produce row predicates: `title` and `author` via `ILIKE` against the pattern
`%value%`, which is case-insensitive substring containment whenever the value
contains no SQL wildcard (`%`/`_`); `publication_year` and `isbn` by exact
equality. A non-column class attribute compiles into a constant,
row-independent clause: Python equality of the class attribute with the value
— false for object-valued attributes such as `metadata` or `registry`, a
literal string comparison for the string-valued `__tablename__`. Keys that are
not `Book` attributes are ignored, as are null values; present filters
combine with logical AND, and the empty filter set matches all books. -/
theorem get_books_filter_semantics (fs : Filters) (b : StoredBook) :
    (matchesFilters [] b = true)
  ∧ (∀ k v, bookHasAttr k = false → matchesFilters ((k, v) :: fs) b = matchesFilters fs b)
  ∧ (∀ k, matchesFilters ((k, none) :: fs) b = matchesFilters fs b)
  ∧ (∀ k v, bookHasAttr k = true →
      matchesFilters ((k, some v) :: fs) b = (rowPred b k v && matchesFilters fs b))
  ∧ (∀ fs₂, matchesFilters (fs ++ fs₂) b = (matchesFilters fs b && matchesFilters fs₂ b))
  ∧ (∀ s, noWildcards s = true → rowPred b "title" (FilterVal.str s) = substringCI b.title s)
  ∧ (∀ s, noWildcards s = true → rowPred b "author" (FilterVal.str s) = substringCI b.author s)
  ∧ (∀ n, rowPred b "publication_year" (FilterVal.int n) = (b.publication_year == some n))
  ∧ (∀ s, rowPred b "isbn" (FilterVal.str s) = (b.isbn == some s))
  ∧ (∀ v, rowPred b "metadata" v = false ∧ rowPred b "registry" v = false
      ∧ rowPred b "__init__" v = false ∧ rowPred b "__repr__" v = false)
  ∧ (∀ s, rowPred b "__tablename__" (FilterVal.str s) = ("books" == s)) := by
  refine ⟨rfl, ?_, ?_, ?_, ?_, ?_, ?_, fun n => rfl, fun s => rfl, ?_, fun s => rfl⟩
  · intro k v hk
    cases v with
    | none => simp [matchesFilters, filterConditions, List.filterMap_cons]
    | some v' => simp [matchesFilters, filterConditions, List.filterMap_cons, hk]
  · intro k
    simp [matchesFilters, filterConditions, List.filterMap_cons]
  · intro k v hk
    simp [matchesFilters, filterConditions, List.filterMap_cons, hk]
  · intro fs₂
    simp [matchesFilters, filterConditions, List.filterMap_append, List.all_append]
  · intro s hs
    exact ilikeContains_no_wildcards b.title s hs
  · intro s hs
    exact ilikeContains_no_wildcards b.author s hs
  · intro v
    refine ⟨?_, ?_, ?_, ?_⟩ <;> cases v <;> rfl

/-- Witness for `get_books_filter_semantics`: a key that is no `Book`
attribute at all is ignored, and a wildcard-free `title` condition is the
case-insensitive containment test. -/
theorem get_books_filter_semantics_witness :
    matchesFilters [("foo", some (FilterVal.str "x"))] ⟨1, "My Book", "A", none, none, none, 0, 0⟩
        = matchesFilters [] ⟨1, "My Book", "A", none, none, none, 0, 0⟩
  ∧ rowPred ⟨1, "My Book", "A", none, none, none, 0, 0⟩ "title" (FilterVal.str "Book")
        = substringCI "My Book" "Book" := by
  exact ⟨(get_books_filter_semantics [] _).2.1 "foo" (some (FilterVal.str "x")) (by decide),
    (get_books_filter_semantics [] _).2.2.2.2.2.1 "Book" (by decide)⟩

/-- Field-level effect of the title merge step. -/
lemma mergeTitle_proj (md : BookMetadata) (bd : BookData) :
    (mergeTitle md bd).title = (if !md.title.isEmpty then md.title else bd.title)
  ∧ (mergeTitle md bd).description = bd.description
  ∧ (mergeTitle md bd).author = bd.author
  ∧ (mergeTitle md bd).id = bd.id
  ∧ (mergeTitle md bd).publication_year = bd.publication_year
  ∧ (mergeTitle md bd).isbn = bd.isbn
  ∧ (mergeTitle md bd).created_at = bd.created_at
  ∧ (mergeTitle md bd).updated_at = bd.updated_at
  ∧ (mergeTitle md bd).publication_date = bd.publication_date := by
  obtain ⟨_, _, _, _, _, _, _, _, _, _, _⟩ := bd
  unfold mergeTitle
  split_ifs <;> simp_all

/-- Field-level effect of the description merge step. -/
lemma mergeDescription_proj (md : BookMetadata) (bd : BookData) :
    (mergeDescription md bd).description =
      (if !truthyOS bd.description && truthyOS md.description then md.description
        else bd.description)
  ∧ (mergeDescription md bd).title = bd.title
  ∧ (mergeDescription md bd).author = bd.author
  ∧ (mergeDescription md bd).id = bd.id
  ∧ (mergeDescription md bd).publication_year = bd.publication_year
  ∧ (mergeDescription md bd).isbn = bd.isbn
  ∧ (mergeDescription md bd).created_at = bd.created_at
  ∧ (mergeDescription md bd).updated_at = bd.updated_at
  ∧ (mergeDescription md bd).publication_date = bd.publication_date := by
  obtain ⟨_, _, _, _, _, _, _, _, _, _, _⟩ := bd
  unfold mergeDescription
  split_ifs <;> simp_all

/-- Field-level effect of the author merge step. -/
lemma mergeAuthor_proj (md : BookMetadata) (bd : BookData) :
    (mergeAuthor md bd).author =
      (if bd.author.isEmpty then
        (match md.authors with | a :: _ => a.name | [] => bd.author)
       else bd.author)
  ∧ (mergeAuthor md bd).title = bd.title
  ∧ (mergeAuthor md bd).description = bd.description
  ∧ (mergeAuthor md bd).id = bd.id
  ∧ (mergeAuthor md bd).publication_year = bd.publication_year
  ∧ (mergeAuthor md bd).isbn = bd.isbn
  ∧ (mergeAuthor md bd).created_at = bd.created_at
  ∧ (mergeAuthor md bd).updated_at = bd.updated_at
  ∧ (mergeAuthor md bd).publication_date = bd.publication_date := by
  obtain ⟨_, _, _, _, _, _, _, _, _, _, _⟩ := bd
  unfold mergeAuthor
  cases md.authors <;> split_ifs <;> simp_all

/-- Field-level effect of the cover merge step: only `cover_url` can change. -/
lemma mergeCover_proj (md : BookMetadata) (bd : BookData) :
    (mergeCover md bd).title = bd.title
  ∧ (mergeCover md bd).description = bd.description
  ∧ (mergeCover md bd).author = bd.author
  ∧ (mergeCover md bd).id = bd.id
  ∧ (mergeCover md bd).publication_year = bd.publication_year
  ∧ (mergeCover md bd).isbn = bd.isbn
  ∧ (mergeCover md bd).created_at = bd.created_at
  ∧ (mergeCover md bd).updated_at = bd.updated_at
  ∧ (mergeCover md bd).publication_date = bd.publication_date := by
  obtain ⟨_, _, _, _, _, _, _, _, _, _, _⟩ := bd
  unfold mergeCover
  split_ifs <;> simp_all

/-- Field-level effect of the genre merge step: only `genre` can change. -/
lemma mergeGenre_proj (md : BookMetadata) (bd : BookData) :
    (mergeGenre md bd).title = bd.title
  ∧ (mergeGenre md bd).description = bd.description
  ∧ (mergeGenre md bd).author = bd.author
  ∧ (mergeGenre md bd).id = bd.id
  ∧ (mergeGenre md bd).publication_year = bd.publication_year
  ∧ (mergeGenre md bd).isbn = bd.isbn
  ∧ (mergeGenre md bd).created_at = bd.created_at
  ∧ (mergeGenre md bd).updated_at = bd.updated_at
  ∧ (mergeGenre md bd).publication_date = bd.publication_date := by
  obtain ⟨_, _, _, _, _, _, _, _, _, _, _⟩ := bd
  unfold mergeGenre
  rcases md.genres with _ | (_ | ⟨g, gs⟩) <;> split_ifs <;> simp_all [truthyOL]

/-- Field-level effect of the publication-date step: only `publication_date`
changes, and it receives the raw datetime. -/
lemma mergePubDate_proj (md : BookMetadata) (bd : BookData) :
    (mergePubDate md bd).publication_date =
      (match md.publication_date with | some d => some d | none => bd.publication_date)
  ∧ (mergePubDate md bd).title = bd.title
  ∧ (mergePubDate md bd).description = bd.description
  ∧ (mergePubDate md bd).author = bd.author
  ∧ (mergePubDate md bd).id = bd.id
  ∧ (mergePubDate md bd).publication_year = bd.publication_year
  ∧ (mergePubDate md bd).isbn = bd.isbn
  ∧ (mergePubDate md bd).created_at = bd.created_at
  ∧ (mergePubDate md bd).updated_at = bd.updated_at := by
  obtain ⟨_, _, _, _, _, _, _, _, _, _, _⟩ := bd
  unfold mergePubDate
  cases md.publication_date <;> simp_all

/-- Projections of the enrichment merge: each mutable field of the merged dict
as a function of the inputs, and the fields the merger never assigns. -/
lemma enhanceBookData_proj (md : BookMetadata) (bd : BookData) :
    ((enhanceBookData md bd).title = if !md.title.isEmpty then md.title else bd.title)
  ∧ ((enhanceBookData md bd).description =
      if !truthyOS bd.description && truthyOS md.description then md.description
      else bd.description)
  ∧ ((enhanceBookData md bd).author =
      if bd.author.isEmpty then
        (match md.authors with | a :: _ => a.name | [] => bd.author)
      else bd.author)
  ∧ ((enhanceBookData md bd).id = bd.id)
  ∧ ((enhanceBookData md bd).publication_year = bd.publication_year)
  ∧ ((enhanceBookData md bd).isbn = bd.isbn)
  ∧ ((enhanceBookData md bd).created_at = bd.created_at)
  ∧ ((enhanceBookData md bd).updated_at = bd.updated_at)
  ∧ ((enhanceBookData md bd).publication_date =
      match md.publication_date with | some d => some d | none => bd.publication_date) := by
  have h1 := mergeTitle_proj md bd
  have h2 := mergeDescription_proj md (mergeTitle md bd)
  have h3 := mergeAuthor_proj md (mergeDescription md (mergeTitle md bd))
  have h4 := mergeCover_proj md (mergeAuthor md (mergeDescription md (mergeTitle md bd)))
  have h5 := mergeGenre_proj md
    (mergeCover md (mergeAuthor md (mergeDescription md (mergeTitle md bd))))
  have h6 := mergePubDate_proj md (mergeGenre md
    (mergeCover md (mergeAuthor md (mergeDescription md (mergeTitle md bd)))))
  obtain ⟨h11, h12, h13, h14, h15, h16, h17, h18, h19⟩ := h1
  obtain ⟨h21, h22, h23, h24, h25, h26, h27, h28, h29⟩ := h2
  obtain ⟨h31, h32, h33, h34, h35, h36, h37, h38, h39⟩ := h3
  obtain ⟨h41, h42, h43, h44, h45, h46, h47, h48, h49⟩ := h4
  obtain ⟨h51, h52, h53, h54, h55, h56, h57, h58, h59⟩ := h5
  obtain ⟨h61, h62, h63, h64, h65, h66, h67, h68, h69⟩ := h6
  unfold enhanceBookData
  simp_all

/-- C4: in the enrichment merger the fields merge independently: the title is
always overwritten by `metadata.title` whenever that value is non-empty (and
kept otherwise); the description is filled from metadata only when the
existing one is empty or absent, and kept whenever it is non-empty; the author
is filled only when the existing author is absent (empty), and when metadata
lists several authors only the first author's name is used. -/
theorem enhance_book_data_merge_rules (md : BookMetadata) (bd : BookData) :
    (md.title ≠ "" → (enhanceBookData md bd).title = md.title)
  ∧ (md.title = "" → (enhanceBookData md bd).title = bd.title)
  ∧ (truthyOS bd.description = true → (enhanceBookData md bd).description = bd.description)
  ∧ (truthyOS bd.description = false → truthyOS md.description = true →
      (enhanceBookData md bd).description = md.description)
  ∧ (bd.author ≠ "" → (enhanceBookData md bd).author = bd.author)
  ∧ (bd.author = "" → ∀ a rest, md.authors = a :: rest →
      (enhanceBookData md bd).author = a.name) := by
  obtain ⟨ht, hd, ha, _, _, _, _, _, _⟩ := enhanceBookData_proj md bd
  refine ⟨?_, ?_, ?_, ?_, ?_, ?_⟩
  · intro h
    rw [ht]
    simp [String.isEmpty_iff, h]
  · intro h
    rw [ht]
    simp [String.isEmpty_iff, h]
  · intro h
    rw [hd]
    simp [h]
  · intro h h'
    rw [hd]
    simp [h, h']
  · intro h
    rw [ha]
    simp [String.isEmpty_iff, h]
  · intro h a rest hl
    rw [ha]
    simp [String.isEmpty_iff, h, hl]

/-- Witness for `enhance_book_data_merge_rules`: a non-empty metadata title
overwrites, a present description is kept, a present author is kept. -/
theorem enhance_book_data_merge_rules_witness :
    (enhanceBookData ⟨"i", "T2", [⟨"X", none, none, none⟩], none, none, some "D2", none⟩
        ⟨1, "T", "A", some "D", none, none, 0, 0, none, none, none⟩).title = "T2"
  ∧ (enhanceBookData ⟨"i", "T2", [⟨"X", none, none, none⟩], none, none, some "D2", none⟩
        ⟨1, "T", "A", some "D", none, none, 0, 0, none, none, none⟩).description = some "D"
  ∧ (enhanceBookData ⟨"i", "T2", [⟨"X", none, none, none⟩], none, none, some "D2", none⟩
        ⟨1, "T", "A", some "D", none, none, 0, 0, none, none, none⟩).author = "A" := by
  have h := enhance_book_data_merge_rules
    ⟨"i", "T2", [⟨"X", none, none, none⟩], none, none, some "D2", none⟩
    ⟨1, "T", "A", some "D", none, none, 0, 0, none, none, none⟩
  exact ⟨h.1 (by decide), h.2.2.1 (by decide), h.2.2.2.2.1 (by decide)⟩

/-- The existing book of the spec's enrichment-merge example: description `""`,
author `"A"` (other fields inert). -/
def exampleBook : BookData :=
  ⟨1, "T", "A", some "", some 2000, some "i", 0, 0, none, none, none⟩

/-- The fetched metadata of the spec's enrichment-merge example: description
`"D"`, authors `X` then `Y`; the fields the example leaves out are absent
(the required `title` is empty, hence falsy). -/
def exampleMeta : BookMetadata :=
  ⟨"i", "", [⟨"X", none, none, none⟩, ⟨"Y", none, none, none⟩], none, none, some "D", none⟩

/-- Counterexample to C5 as stated: on the example input the merge keeps the
existing author `"A"`: `enhance_book_data` fills the author only when
`book_data.get("author")` is falsy, and `"A"` is truthy, so the result's
author is not `"X"`. -/
theorem enrichment_example_author_not_overwritten :
    (enhanceBookData exampleMeta exampleBook).author = "A"
  ∧ (enhanceBookData exampleMeta exampleBook).author ≠ "X" := by
  exact ⟨rfl, by decide⟩

/-- C5 (amended): on the example input the merge produces description `"D"`
and keeps author `"A"` (the existing author is present, so the metadata
authors are not consulted), with the unaffected fields untouched. -/
theorem enrichment_example_merge_result :
    (enhanceBookData exampleMeta exampleBook).description = some "D"
  ∧ (enhanceBookData exampleMeta exampleBook).author = "A"
  ∧ (enhanceBookData exampleMeta exampleBook).title = exampleBook.title
  ∧ (enhanceBookData exampleMeta exampleBook).publication_year = exampleBook.publication_year
  ∧ (enhanceBookData exampleMeta exampleBook).isbn = exampleBook.isbn
  ∧ (enhanceBookData exampleMeta exampleBook).id = exampleBook.id
  ∧ (enhanceBookData exampleMeta exampleBook).created_at = exampleBook.created_at
  ∧ (enhanceBookData exampleMeta exampleBook).cover_url = none
  ∧ (enhanceBookData exampleMeta exampleBook).genre = none
  ∧ (enhanceBookData exampleMeta exampleBook).publication_date = none := by
  exact ⟨rfl, rfl, rfl, rfl, rfl, rfl, rfl, rfl, rfl, rfl⟩

/-- C7: the merger performs no date-to-year conversion. On metadata carrying
`publication_date = datetime(2020, 5, 1)` the merged dict receives the raw
datetime value under the `publication_date` key, while the integer-typed
`publication_year` field receives nothing (it keeps the book's prior value):
the code contradicts the required explicit date-to-year mapping, as its own
comment admits. -/
theorem enhance_publication_date_raw_passthrough :
    (enhanceBookData
        ⟨"i", "", [], some ⟨2020, 5, 1⟩, none, none, none⟩
        ⟨1, "T", "A", none, some 1999, some "i", 0, 0, none, none, none⟩).publication_date
      = some ⟨2020, 5, 1⟩
  ∧ (enhanceBookData
        ⟨"i", "", [], some ⟨2020, 5, 1⟩, none, none, none⟩
        ⟨1, "T", "A", none, some 1999, some "i", 0, 0, none, none, none⟩).publication_year
      = some 1999 := by
  exact ⟨rfl, rfl⟩

/-- C8: a transport failure is mapped to status 503, but a response with a
malformed body is caught by the blanket `except Exception` and mapped to
status 500 — not the 502/503 class the specification requires for
`ExternalServiceError` — and either failure propagates out of
`enhance_book_data`, failing the enclosing enrichment. -/
theorem get_book_metadata_malformed_maps_to_500 :
    getBookMetadata (FetchOutcome.transportError "timed out")
      = Except.error ⟨503, "Ошибка при обращении к внешнему API: timed out"⟩
  ∧ getBookMetadata (FetchOutcome.malformed "Expecting value: line 1 column 1")
      = Except.error ⟨500, "Ошибка при получении метаданных: Expecting value: line 1 column 1"⟩
  ∧ enhanceBookDataFetch (FetchOutcome.malformed "Expecting value: line 1 column 1")
        ⟨1, "T", "A", none, none, some "i", 0, 0, none, none, none⟩
      = Except.error ⟨500, "Ошибка при получении метаданных: Expecting value: line 1 column 1"⟩ := by
  exact ⟨rfl, rfl, rfl⟩

/-- Counterexample to C6 as stated: the claim requires `updated_at` to be
refreshed on every update of an existing id, but with an all-None payload
`update_data` is empty, no `setattr` occurs, the commit emits no UPDATE, so
the `onupdate` hook does not fire: the stored book keeps its prior
`updated_at` (3), not the commit clock (9). -/
theorem update_book_empty_payload_keeps_updated_at :
    ∃ b' st',
      updateBook [⟨1, "T", "A", none, none, none, 0, 3⟩] 9 1
          ⟨none, none, none, none, none⟩ = some (b', st')
        ∧ b'.updated_at = 3 ∧ ¬ b'.updated_at = 9 := by
  refine ⟨⟨1, "T", "A", none, none, none, 0, 3⟩, [⟨1, "T", "A", none, none, none, 0, 3⟩],
    rfl, rfl, by decide⟩

/-- C6 (amended): for an id with no record `update_book` returns not-found;
for an existing record it applies exactly the fields present (non-null) in the
payload and leaves every omitted field's prior value unchanged, with id and
`created_at` untouched; `updated_at` is refreshed exactly when the applied
fields produce a net change to the row (the `onupdate` hook fires only when an
UPDATE is emitted), and in particular keeps its prior value under an all-None
payload. -/
theorem update_book_partial_semantics (store : Store) (now bid : Nat) (u : BookUpdate) :
    (store.find? (fun x => x.id == bid) = none → updateBook store now bid u = none)
  ∧ (∀ b, store.find? (fun x => x.id == bid) = some b →
      ∃ b' st', updateBook store now bid u = some (b', st')
        ∧ b'.id = b.id
        ∧ b'.created_at = b.created_at
        ∧ (netChange b u = true → b'.updated_at = now)
        ∧ (netChange b u = false → b'.updated_at = b.updated_at)
        ∧ (u.title = none → b'.title = b.title)
        ∧ (∀ v, u.title = some v → b'.title = v)
        ∧ (u.author = none → b'.author = b.author)
        ∧ (∀ v, u.author = some v → b'.author = v)
        ∧ (u.description = none → b'.description = b.description)
        ∧ (∀ v, u.description = some v → b'.description = some v)
        ∧ (u.publication_year = none → b'.publication_year = b.publication_year)
        ∧ (∀ v, u.publication_year = some v → b'.publication_year = some v)
        ∧ (u.isbn = none → b'.isbn = b.isbn)
        ∧ (∀ v, u.isbn = some v → b'.isbn = some v)) := by
  constructor
  · intro h
    unfold updateBook
    rw [h]
  · intro b hb
    refine ⟨applyUpdate b u now, replaceFirst bid (applyUpdate b u now) store, ?_,
      rfl, rfl, ?_, ?_, ?_, ?_, ?_, ?_, ?_, ?_, ?_, ?_, ?_, ?_⟩
    · unfold updateBook
      rw [hb]
    · intro h
      simp [applyUpdate, h]
    · intro h
      simp [applyUpdate, h]
    · intro h
      simp [applyUpdate, h]
    · intro v h
      simp [applyUpdate, h]
    · intro h
      simp [applyUpdate, h]
    · intro v h
      simp [applyUpdate, h]
    · intro h
      simp [applyUpdate, h]
    · intro v h
      simp [applyUpdate, h]
    · intro h
      simp [applyUpdate, h]
    · intro v h
      simp [applyUpdate, h]
    · intro h
      simp [applyUpdate, h]
    · intro v h
      simp [applyUpdate, h]

/-- Witness for `update_book_partial_semantics`: updating the one stored book
with a payload carrying only a new title and year changes exactly those two
fields, and since they differ from the prior values the `onupdate` hook
refreshes `updated_at`. -/
theorem update_book_partial_semantics_witness :
    ∃ b' st',
      updateBook [⟨1, "Old", "A", some "d", some 1990, none, 0, 0⟩] 9 1
          ⟨some "New", none, none, some 2001, none⟩ = some (b', st')
        ∧ b'.title = "New" ∧ b'.author = "A" ∧ b'.description = some "d"
        ∧ b'.publication_year = some 2001 ∧ b'.isbn = none ∧ b'.updated_at = 9 := by
  obtain ⟨b', st', heq, _, hca, hn1, hn0, ht0, ht1, ha0, ha1, hd0, hd1, hy0, hy1, hi0, hi1⟩ :=
    (update_book_partial_semantics [⟨1, "Old", "A", some "d", some 1990, none, 0, 0⟩] 9 1
      ⟨some "New", none, none, some 2001, none⟩).2
      ⟨1, "Old", "A", some "d", some 1990, none, 0, 0⟩ (by rfl)
  exact ⟨b', st', heq, ht1 "New" rfl, ha0 rfl, hd0 rfl, hy1 2001 rfl, hi0 rfl,
    hn1 (by decide)⟩

/-- A string passing the isbn pattern consists of digits and hyphens only and
carries exactly 10 or exactly 13 digits. -/
lemma isbnPatternOk_shape (s : String) (h : isbnPatternOk s = true) :
    s.data.all (fun c => c.isDigit || c == '-') = true
      ∧ (digitCount s = 10 ∨ digitCount s = 13) := by
  unfold isbnPatternOk at h
  simp only [Bool.and_eq_true] at h
  refine ⟨h.1.1.2, ?_⟩
  rcases Bool.or_eq_true_iff.mp h.1.2 with h10 | h13
  · exact Or.inl (by simpa using h10)
  · exact Or.inr (by simpa using h13)

/-- A validated `BookCreate` carries the raw payload's isbn, which passed
`validIsbnOpt`. -/
lemma validateBookCreate_isbn (cy : Int) (raw : RawBook) (bc : BookCreate)
    (h : validateBookCreate cy raw = Except.ok bc) :
    bc.isbn = raw.isbn ∧ validIsbnOpt raw.isbn = true := by
  unfold validateBookCreate at h
  cases ht : raw.title with
  | none => simp [ht] at h
  | some t =>
    cases ha : raw.author with
    | none =>
      simp only [ht, ha] at h
      split_ifs at h
    | some a =>
      simp only [ht, ha] at h
      split_ifs at h with h1 h2 h3 h4
      simp_all
      rw [← h]

/-- A validated `BookUpdate` carries exactly the raw payload's five fields,
and the payload's isbn passed `validIsbnOpt`. -/
lemma validateBookUpdate_ok (cy : Int) (raw : RawBook) (bu : BookUpdate)
    (h : validateBookUpdate cy raw = Except.ok bu) :
    bu = ⟨raw.title, raw.author, raw.description, raw.publication_year, raw.isbn⟩
      ∧ validIsbnOpt raw.isbn = true := by
  unfold validateBookUpdate at h
  split_ifs at h with h1 h2 h3 h4
  refine ⟨?_, by simpa using h4⟩
  exact ((Except.ok.injEq _ _).mp h).symm

/-- C10: every non-null isbn accepted by payload validation — the `BookCreate`
schema used by the create endpoint and by each bulk-import item, and the
`BookUpdate` schema used by the update endpoint — consists only of decimal
digits and hyphens and contains exactly 10 or exactly 13 digits. -/
theorem accepted_isbn_shape (cy : Int) :
    (∀ raw bc, validateBookCreate cy raw = Except.ok bc → ∀ s, bc.isbn = some s →
        s.data.all (fun c => c.isDigit || c == '-') = true
          ∧ (digitCount s = 10 ∨ digitCount s = 13))
  ∧ (∀ raw bu, validateBookUpdate cy raw = Except.ok bu → ∀ s, bu.isbn = some s →
        s.data.all (fun c => c.isDigit || c == '-') = true
          ∧ (digitCount s = 10 ∨ digitCount s = 13)) := by
  constructor
  · intro raw bc h s hs
    obtain ⟨hbc, hvalid⟩ := validateBookCreate_isbn cy raw bc h
    rw [hbc] at hs
    rw [hs] at hvalid
    unfold validIsbnOpt at hvalid
    simp only [Bool.and_eq_true] at hvalid
    exact isbnPatternOk_shape s hvalid.2
  · intro raw bu h s hs
    obtain ⟨hbu, hvalid⟩ := validateBookUpdate_ok cy raw bu h
    rw [hbu] at hs
    simp only at hs
    rw [hs] at hvalid
    unfold validIsbnOpt at hvalid
    simp only [Bool.and_eq_true] at hvalid
    exact isbnPatternOk_shape s hvalid.2

/-- Witness for `accepted_isbn_shape`: the accepted isbn `0-306-40615-2` is all
digits and hyphens with exactly 10 digits. -/
theorem accepted_isbn_shape_witness :
    "0-306-40615-2".data.all (fun c => c.isDigit || c == '-') = true
      ∧ (digitCount "0-306-40615-2" = 10 ∨ digitCount "0-306-40615-2" = 13) := by
  exact (accepted_isbn_shape 2024).1 ⟨some "T", some "A", none, none, some "0-306-40615-2"⟩
    ⟨"T", "A", none, none, some "0-306-40615-2"⟩ (by rfl) "0-306-40615-2" rfl

/-- An absent-or-overwrite update with the field's own old value is the
identity on that field. -/
lemma option_overwrite_self {α : Type} (o : Option α) :
    (match o with | some v => some v | none => o) = o := by
  cases o <;> rfl

/-- C9: a successful run of the enrichment endpoint leaves the persisted
book's id, isbn, publication_year and created_at unchanged: the `cover_url`,
`genre` and `publication_date` keys that `enhance_book_data` adds to the merged
dict are dropped when the dict is converted to a `BookUpdate` (which declares
no such fields), and the `publication_year` and `isbn` values written back are
the book's own prior values. -/
theorem enrich_preserves_identity (cy : Int) (now : Nat) (store : Store) (bid : Nat)
    (outcome : FetchOutcome) (ub : StoredBook) (st' : Store)
    (h : enrichBookWithMetadata cy now store bid outcome = Except.ok (ub, st'))
    (b : StoredBook) (hb : store.find? (fun x => x.id == bid) = some b) :
    ub.id = b.id ∧ ub.isbn = b.isbn ∧ ub.publication_year = b.publication_year
      ∧ ub.created_at = b.created_at := by
  unfold enrichBookWithMetadata at h
  rw [hb] at h
  by_cases hI : truthyOS b.isbn
  case neg => simp [hI] at h
  simp only [hI, Bool.not_true, Bool.false_eq_true, if_false, reduceIte] at h
  cases outcome with
  | transportError e => simp [enhanceBookDataFetch, getBookMetadata] at h
  | malformed e => simp [enhanceBookDataFetch, getBookMetadata] at h
  | wellFormed md =>
    simp only [enhanceBookDataFetch, getBookMetadata] at h
    cases hU : bookUpdateOfEnhanced cy (enhanceBookData md (toBookData b)) with
    | error e => rw [hU] at h; simp at h
    | ok bu =>
      rw [hU] at h
      unfold updateBook at h
      rw [hb] at h
      simp only [Except.ok.injEq, Prod.mk.injEq] at h
      obtain ⟨hub, _⟩ := h
      unfold bookUpdateOfEnhanced at hU
      obtain ⟨hbu, _⟩ := validateBookUpdate_ok cy _ bu hU
      obtain ⟨_, _, _, _, hpy, hisbn, _, _, _⟩ :=
        enhanceBookData_proj md (toBookData b)
      subst hbu
      rw [← hub]
      refine ⟨rfl, ?_, ?_, rfl⟩
      · have hisbn2 : (enhanceBookData md (toBookData b)).isbn = b.isbn := hisbn.trans rfl
        simp only [applyUpdate, hisbn2]
        cases b.isbn <;> rfl
      · have hpy2 : (enhanceBookData md (toBookData b)).publication_year
            = b.publication_year := hpy.trans rfl
        simp only [applyUpdate, hpy2]
        cases b.publication_year <;> rfl

/-- Witness for `enrich_preserves_identity`: a concrete successful enrichment
run that overwrites the title and fills the description while keeping id,
isbn, publication_year and created_at. -/
theorem enrich_preserves_identity_witness :
    (⟨1, "New", "A", some "Desc", some 2000, some "0306406152", 0, 5⟩ : StoredBook).id
        = (⟨1, "T", "A", none, some 2000, some "0306406152", 0, 0⟩ : StoredBook).id
  ∧ (⟨1, "New", "A", some "Desc", some 2000, some "0306406152", 0, 5⟩ : StoredBook).isbn
        = (⟨1, "T", "A", none, some 2000, some "0306406152", 0, 0⟩ : StoredBook).isbn
  ∧ (⟨1, "New", "A", some "Desc", some 2000, some "0306406152", 0, 5⟩ : StoredBook).publication_year
        = (⟨1, "T", "A", none, some 2000, some "0306406152", 0, 0⟩ : StoredBook).publication_year
  ∧ (⟨1, "New", "A", some "Desc", some 2000, some "0306406152", 0, 5⟩ : StoredBook).created_at
        = (⟨1, "T", "A", none, some 2000, some "0306406152", 0, 0⟩ : StoredBook).created_at := by
  exact enrich_preserves_identity 2024 5
    [⟨1, "T", "A", none, some 2000, some "0306406152", 0, 0⟩] 1
    (FetchOutcome.wellFormed ⟨"0306406152", "New", [⟨"X", none, none, none⟩],
      none, none, some "Desc", none⟩)
    ⟨1, "New", "A", some "Desc", some 2000, some "0306406152", 0, 5⟩
    [⟨1, "New", "A", some "Desc", some 2000, some "0306406152", 0, 5⟩]
    (by rfl)
    ⟨1, "T", "A", none, some 2000, some "0306406152", 0, 0⟩ (by rfl)

/-- A successful create appends exactly the returned row to the store. -/
lemma createBook_ok_store (now : Nat) (store : Store) (bc : BookCreate)
    (b : StoredBook) (store' : Store)
    (h : createBook now store bc = Except.ok (b, store')) : store' = store ++ [b] := by
  unfold createBook at h
  cases hi : bc.isbn with
  | none =>
    simp only [hi, Except.ok.injEq, Prod.mk.injEq] at h
    rw [← h.2, ← h.1]
  | some s =>
    simp only [hi] at h
    split_ifs at h
    simp only [Except.ok.injEq, Prod.mk.injEq] at h
    rw [← h.2, ← h.1]

/-- The import loop refines the specification trace: starting from counters
`succ`/`fail` and accumulated `errs` at 0-based index `idx`, it returns the
counters incremented by the number of succeeding/failing items, the error
messages of the trace appended in order, and the trace's final store. -/
lemma processLoop_eq_trace (cy : Int) (now : Nat) :
    ∀ (items : List RawBook) (idx succ fail : Nat) (errs : List String) (store : Store),
      processLoop cy now idx succ fail errs store items =
        (succ + (importTrace cy now (idx + 1) store items).2.1.length,
         fail + (importTrace cy now (idx + 1) store items).1.length,
         errs ++ (importTrace cy now (idx + 1) store items).1.map Prod.snd,
         (importTrace cy now (idx + 1) store items).2.2) := by
  intro items
  induction items with
  | nil =>
    intro idx succ fail errs store
    simp [processLoop, importTrace]
  | cons raw rest ih =>
    intro idx succ fail errs store
    rcases hv : validateBookCreate cy raw with e | bc
    · simp only [processLoop, importTrace, hv]
      rw [ih]
      simp only [List.length_cons, List.map_cons, List.append_assoc, List.singleton_append]
      have harith : fail + 1 + (importTrace cy now (idx + 1 + 1) store rest).1.length
          = fail + ((importTrace cy now (idx + 1 + 1) store rest).1.length + 1) := by omega
      rw [harith]
    · rcases hc : createBook now store bc with e | ⟨b, store'⟩
      · simp only [processLoop, importTrace, hv, hc]
        rw [ih]
        simp only [List.length_cons, List.map_cons, List.append_assoc, List.singleton_append]
        have harith : fail + 1 + (importTrace cy now (idx + 1 + 1) store rest).1.length
            = fail + ((importTrace cy now (idx + 1 + 1) store rest).1.length + 1) := by omega
        rw [harith]
      · simp only [processLoop, importTrace, hv, hc]
        rw [ih]
        simp only [List.length_cons]
        have harith : succ + 1 + (importTrace cy now (idx + 1 + 1) store' rest).2.1.length
            = succ + ((importTrace cy now (idx + 1 + 1) store' rest).2.1.length + 1) := by omega
        rw [harith]

/-- The trace's final store is the initial store with the created rows
appended, in order. -/
lemma importTrace_store (cy : Int) (now : Nat) :
    ∀ (items : List RawBook) (pos : Nat) (store : Store),
      (importTrace cy now pos store items).2.2
        = store ++ (importTrace cy now pos store items).2.1 := by
  intro items
  induction items with
  | nil =>
    intro pos store
    simp [importTrace]
  | cons raw rest ih =>
    intro pos store
    rcases hv : validateBookCreate cy raw with e | bc
    · simp only [importTrace, hv]
      exact ih (pos + 1) store
    · rcases hc : createBook now store bc with e | ⟨b, store'⟩
      · simp only [importTrace, hv, hc]
        exact ih (pos + 1) store
      · simp only [importTrace, hv, hc]
        rw [ih (pos + 1) store', createBook_ok_store now store bc b store' hc]
        simp

/-- Every item contributes exactly once: failures to the trace, successes to
the created-rows list. -/
lemma importTrace_count (cy : Int) (now : Nat) :
    ∀ (items : List RawBook) (pos : Nat) (store : Store),
      (importTrace cy now pos store items).1.length
        + (importTrace cy now pos store items).2.1.length = items.length := by
  intro items
  induction items with
  | nil =>
    intro pos store
    simp [importTrace]
  | cons raw rest ih =>
    intro pos store
    rcases hv : validateBookCreate cy raw with e | bc
    · simp only [importTrace, hv, List.length_cons]
      have := ih (pos + 1) store
      omega
    · rcases hc : createBook now store bc with e | ⟨b, store'⟩
      · simp only [importTrace, hv, hc, List.length_cons]
        have := ih (pos + 1) store
        omega
      · simp only [importTrace, hv, hc, List.length_cons]
        have := ih (pos + 1) store'
        omega

/-- Every recorded failure carries a position inside the processed range. -/
lemma importTrace_pos_bounds (cy : Int) (now : Nat) :
    ∀ (items : List RawBook) (pos : Nat) (store : Store) (q : Nat × String),
      q ∈ (importTrace cy now pos store items).1 →
        pos ≤ q.1 ∧ q.1 < pos + items.length := by
  intro items
  induction items with
  | nil =>
    intro pos store q hq
    simp [importTrace] at hq
  | cons raw rest ih =>
    intro pos store q hq
    rcases hv : validateBookCreate cy raw with e | bc
    · simp only [importTrace, hv, List.mem_cons] at hq
      rcases hq with rfl | hq
      · simp
      · have := ih (pos + 1) store q hq
        simp only [List.length_cons]
        omega
    · rcases hc : createBook now store bc with e | ⟨b, store'⟩
      · simp only [importTrace, hv, hc, List.mem_cons] at hq
        rcases hq with rfl | hq
        · simp
        · have := ih (pos + 1) store q hq
          simp only [List.length_cons]
          omega
      · simp only [importTrace, hv, hc] at hq
        have := ih (pos + 1) store' q hq
        simp only [List.length_cons]
        omega

/-- The recorded failure positions are strictly increasing: the error list is
in input order, never regrouped. -/
lemma importTrace_chain (cy : Int) (now : Nat) :
    ∀ (items : List RawBook) (pos : Nat) (store : Store),
      List.Chain' (· < ·) ((importTrace cy now pos store items).1.map Prod.fst) := by
  intro items
  induction items with
  | nil =>
    intro pos store
    simp [importTrace]
  | cons raw rest ih =>
    intro pos store
    have hhead : ∀ (st : Store) (y : Nat),
        y ∈ (((importTrace cy now (pos + 1) st rest).1.map Prod.fst).head?) → pos < y := by
      intro st y hy
      have hmem := List.mem_of_mem_head? hy
      obtain ⟨q, hq, rfl⟩ := List.mem_map.mp hmem
      have := importTrace_pos_bounds cy now rest (pos + 1) st q hq
      omega
    rcases hv : validateBookCreate cy raw with e | bc
    · simp only [importTrace, hv, List.map_cons]
      exact List.chain'_cons'.mpr ⟨hhead store, ih (pos + 1) store⟩
    · rcases hc : createBook now store bc with e | ⟨b, store'⟩
      · simp only [importTrace, hv, hc, List.map_cons]
        exact List.chain'_cons'.mpr ⟨hhead store, ih (pos + 1) store⟩
      · simp only [importTrace, hv, hc]
        exact ih (pos + 1) store'

/-- Every recorded error message is one of the two source f-strings built from
the item's own 1-based position. -/
lemma importTrace_msg (cy : Int) (now : Nat) :
    ∀ (items : List RawBook) (pos : Nat) (store : Store) (q : Nat × String),
      q ∈ (importTrace cy now pos store items).1 →
        ∃ e, q.2 = validationErrMsg q.1 e ∨ q.2 = importErrMsg q.1 e := by
  intro items
  induction items with
  | nil =>
    intro pos store q hq
    simp [importTrace] at hq
  | cons raw rest ih =>
    intro pos store q hq
    rcases hv : validateBookCreate cy raw with e | bc
    · simp only [importTrace, hv, List.mem_cons] at hq
      rcases hq with rfl | hq
      · exact ⟨e, Or.inl rfl⟩
      · exact ih (pos + 1) store q hq
    · rcases hc : createBook now store bc with e | ⟨b, store'⟩
      · simp only [importTrace, hv, hc, List.mem_cons] at hq
        rcases hq with rfl | hq
        · exact ⟨e, Or.inr rfl⟩
        · exact ih (pos + 1) store q hq
      · simp only [importTrace, hv, hc] at hq
        exact ih (pos + 1) store' q hq

/-- C1: for every input sequence of `N` raw payloads, writing `K` for the
number of items that fail (schema validation or repository create, as recorded
by the run's failure trace), `process_json_file` reports
`successful_imports = N - K`, `failed_imports = K`, and exactly `K` error
strings whose order matches the order of the failing items in the input (the
recorded 1-based positions are strictly increasing and lie in `[1, N]`, and
each message is built from its item's position); the `N - K` valid records are
appended to the store in order regardless of where the failures occur, so no
single item's failure aborts the rest of the batch. -/
theorem process_json_file_partial_failure (cy : Int) (now : Nat)
    (items : List RawBook) (store : Store) :
    ((processJsonFile cy now items store).1 + (processJsonFile cy now items store).2.1
        = items.length)
  ∧ ((processJsonFile cy now items store).2.1
        = (importTrace cy now 1 store items).1.length)
  ∧ ((processJsonFile cy now items store).1
        = items.length - (importTrace cy now 1 store items).1.length)
  ∧ ((processJsonFile cy now items store).2.2.1
        = (importTrace cy now 1 store items).1.map Prod.snd)
  ∧ ((processJsonFile cy now items store).2.2.1.length
        = (processJsonFile cy now items store).2.1)
  ∧ List.Chain' (· < ·) ((importTrace cy now 1 store items).1.map Prod.fst)
  ∧ (∀ q ∈ (importTrace cy now 1 store items).1,
        (1 ≤ q.1 ∧ q.1 ≤ items.length)
          ∧ ∃ e, q.2 = validationErrMsg q.1 e ∨ q.2 = importErrMsg q.1 e)
  ∧ ((processJsonFile cy now items store).2.2.2
        = store ++ (importTrace cy now 1 store items).2.1)
  ∧ ((importTrace cy now 1 store items).2.1.length
        = (processJsonFile cy now items store).1) := by
  have hcount := importTrace_count cy now items 1 store
  have hstore := importTrace_store cy now items 1 store
  have hloop : processJsonFile cy now items store =
      ((importTrace cy now 1 store items).2.1.length,
       (importTrace cy now 1 store items).1.length,
       (importTrace cy now 1 store items).1.map Prod.snd,
       (importTrace cy now 1 store items).2.2) := by
    unfold processJsonFile
    rw [processLoop_eq_trace cy now items 0 0 0 [] store]
    simp
  rw [hloop]
  refine ⟨?_, rfl, ?_, rfl, ?_, importTrace_chain cy now items 1 store, ?_, hstore, rfl⟩
  · show (importTrace cy now 1 store items).2.1.length
      + (importTrace cy now 1 store items).1.length = items.length
    omega
  · show (importTrace cy now 1 store items).2.1.length
      = items.length - (importTrace cy now 1 store items).1.length
    omega
  · show ((importTrace cy now 1 store items).1.map Prod.snd).length
      = (importTrace cy now 1 store items).1.length
    simp
  · intro q hq
    have hb := importTrace_pos_bounds cy now items 1 store q hq
    exact ⟨⟨hb.1, by omega⟩, importTrace_msg cy now items 1 store q hq⟩

/-- Witness for `process_json_file_partial_failure`: a five-item batch in which
items 2, 3 and 5 fail (missing title, bad isbn, duplicate isbn) yields
`2 + 3 = 5` accounted items, and the recorded failure at position 2 carries a
message built from that position. -/
theorem process_json_file_partial_failure_witness :
    ((processJsonFile 2024 7
        [⟨some "B1", some "A1", none, none, none⟩,
         ⟨none, some "A2", none, none, none⟩,
         ⟨some "B3", some "A3", none, none, some "bad"⟩,
         ⟨some "B4", some "A4", none, none, some "1234567890"⟩,
         ⟨some "B5", some "A5", none, none, some "1234567890"⟩] []).1
      + (processJsonFile 2024 7
        [⟨some "B1", some "A1", none, none, none⟩,
         ⟨none, some "A2", none, none, none⟩,
         ⟨some "B3", some "A3", none, none, some "bad"⟩,
         ⟨some "B4", some "A4", none, none, some "1234567890"⟩,
         ⟨some "B5", some "A5", none, none, some "1234567890"⟩] []).2.1 = 5)
  ∧ ∃ e, ((2 : Nat), validationErrMsg 2 "title: field required").2
        = validationErrMsg ((2 : Nat), validationErrMsg 2 "title: field required").1 e
      ∨ ((2 : Nat), validationErrMsg 2 "title: field required").2
        = importErrMsg ((2 : Nat), validationErrMsg 2 "title: field required").1 e := by
  have h := process_json_file_partial_failure 2024 7
    [⟨some "B1", some "A1", none, none, none⟩,
     ⟨none, some "A2", none, none, none⟩,
     ⟨some "B3", some "A3", none, none, some "bad"⟩,
     ⟨some "B4", some "A4", none, none, some "1234567890"⟩,
     ⟨some "B5", some "A5", none, none, some "1234567890"⟩] []
  refine ⟨h.1, ?_⟩
  exact (h.2.2.2.2.2.2.1 (2, validationErrMsg 2 "title: field required") (by decide)).2

/-- Witness for `pagination_metadata_correct` at `total_items = 5`, `page = 2`,
`page_size = 2`: three pages, a next page and a previous page. -/
theorem pagination_metadata_correct_witness :
    (paginationMetadata 5 2 2).total_pages = 3
  ∧ (paginationMetadata 5 2 2).has_next = true
  ∧ (paginationMetadata 5 2 2).has_previous = true := by
  have h := pagination_metadata_correct 5 2 2 (by decide) (by decide)
  refine ⟨?_, by decide, by decide⟩
  rw [h.1, if_pos (by decide)]
  rw [show ((5 : ℕ) : ℚ) / ((2 : ℕ) : ℚ) = 5 / 2 by norm_num]
  rw [Nat.ceil_eq_iff (by norm_num)]
  norm_num

end BookApi
